import Mathlib

/-!
Shallow embedding of `ga-deploy-git` (src/main.ts), a GitHub action that
deploys the contents of a directory as the root content of a branch of a
Git repository.

The embedding models the deployment orchestration as pure functions over
explicit inputs:

* the trigger context (`github.context`) is a record `Context`;
* the external command executor is an oracle `GitWorld` giving the exit
  codes of the two commands that are run with `ignoreReturnCode: true`
  (`git ls-remote` and `git diff-index`), the directory listings read by
  the filesystem helpers, and the raw output of `git log` used for the
  commit title.  Commands whose failure simply aborts the run (init,
  config, fetch, checkout, add, commit, push) are modelled as succeeding:
  the claims under study are about the branching logic of the run, which
  the source only reaches when those commands succeed;
* `deploy` returns a `DeployResult` recording the sequence of git commands
  issued (`trace`), the intermediate flags of the run (`isNewBranch`,
  `isNonEmpty`, `hasChanges`, `none` when the run aborts before the flag is
  assigned), the synchronized workspace listing, the commit message lines,
  and the final outcome (`deployed`, `skipped`, or an error).
-/

/-- Trigger context (`github.context`): read-only facts about the run. -/
structure Context where
  sha : String
  ref : String
  repoOwner : String
  repoRepo : String
  workflow : String
  actor : String
deriving DecidableEq

/-- Raw user inputs (interface `Inputs` in the source): optional fields are
`string | undefined` in TypeScript, modelled as `Option String`. -/
structure Inputs where
  accessToken : String
  srcDir : Option String
  destRepo : Option String
  destBranch : String
  commitUser : Option String
  commitEmail : Option String
deriving DecidableEq

/-- Resolved configuration (interface `ResolvedInputs` in the source):
every field present. -/
structure ResolvedInputs where
  accessToken : String
  srcDir : String
  destRepo : String
  destBranch : String
  commitUser : String
  commitEmail : String
deriving DecidableEq

/-- `isDefined(optStr)` from the source:
`optStr !== undefined && optStr.length > 0`. -/
def isDefined : Option String → Bool
  | some optStr => decide (0 < optStr.length)
  | none => false

/-- `resolveInputs` from the source: fill in the defaults for the optional
fields.  The TypeScript reads `github.context`; the context is passed
explicitly here.  When `isDefined` holds the option is `some`, so `getD ""`
returns the supplied string, as the TypeScript narrowing does. -/
def resolveInputs (ctx : Context) (inputs : Inputs) : ResolvedInputs :=
  let destRepo : String :=
    if isDefined inputs.destRepo then inputs.destRepo.getD ""
    else ctx.repoOwner ++ "/" ++ ctx.repoRepo
  let srcDir : String :=
    if isDefined inputs.srcDir then inputs.srcDir.getD "" else "."
  let commitUser : String :=
    if isDefined inputs.commitUser then inputs.commitUser.getD "" else ctx.actor
  let commitEmail : String :=
    if isDefined inputs.commitEmail then inputs.commitEmail.getD ""
    else ctx.actor ++ "@users.noreply.github.com"
  ⟨inputs.accessToken, srcDir, destRepo, inputs.destBranch, commitUser, commitEmail⟩

/-- Entries of a directory remaining after `rmAllExceptDotGit(dir)`: the
source schedules `io.rmRF` for every entry whose name is not `".git"`, so
only the `".git"` entries remain. -/
def rmAllExceptDotGit (fileNames : List String) : List String :=
  fileNames.filter (fun fileName => fileName == ".git")

/-- One iteration of the loop of `copyAllExceptDotGit`: skip `".git"`,
otherwise record the copied entry and set `didCopySomething`. -/
def copyStep (acc : List String × Bool) (fileName : String) : List String × Bool :=
  if fileName == ".git" then acc else (acc.fst ++ [fileName], true)

/-- `copyAllExceptDotGit(srcDir, destDir)` from the source: returns the
entries copied into the workspace and the `didCopySomething` flag. -/
def copyAllExceptDotGit (srcFileNames : List String) : List String × Bool :=
  srcFileNames.foldl copyStep ([], false)

/-- Prefix of the first `n` characters of a string, modelling the
JavaScript `s.substr(0, n)` used for `shortSha` (the commit identifiers at
play are ASCII, so UTF-16 units and characters coincide). -/
def substrPrefix (s : String) (n : Nat) : String :=
  String.mk (s.data.take n)

/-- Characters of a string up to (excluding) the first line break,
modelling `message.split("\n")[0]`. -/
def firstLineChars (cs : List Char) : List Char :=
  cs.takeWhile (fun c => c != Char.ofNat 10)

/-- Whitespace trimming on a character list, modelling
`String.prototype.trim`. -/
def trimChars (cs : List Char) : List Char :=
  ((cs.dropWhile Char.isWhitespace).reverse.dropWhile Char.isWhitespace).reverse

/-- `getCommitTitle(sha)` from the source, as a function of the raw
message emitted by `git log --format=%B -n 1 <sha>`:
`message.split("\n")[0].trim()`. -/
def getCommitTitle (message : String) : String :=
  String.mk (trimChars (firstLineChars message.data))

/-- Errors of the deployment body.  `branchCheckFailed` models
`throw new Error("Failed to check existence of destBranch in destination repository")`. -/
inductive DeployError where
  | branchCheckFailed
deriving DecidableEq

/-- Terminal success outcome of a run: a deployment commit was pushed, or
the run was skipped because no changes were detected. -/
inductive Outcome where
  | deployed
  | skipped
deriving DecidableEq

/-- Git commands issued by `deploy`, with the arguments the claims are
about. -/
inductive GitCmd where
  | gitInit
  | configUserName (name : String)
  | configUserEmail (email : String)
  | remoteAdd (remote : String) (uri : String)
  | fetch (remote : String)
  | lsRemoteHeads (remote : String) (branch : String)
  | checkoutTrack (branch : String)
  | checkoutOrphan (branch : String)
  | addAll
  | diffIndexQuiet
  | commit (msg : String)
  | push (remote : String) (branch : String)
deriving DecidableEq

/-- Oracle for one run of `deploy`: exit codes for the two tolerated
commands, directory listings, and the raw commit message of the triggering
commit. -/
structure GitWorld where
  lsRemoteExit : Nat
  diffIndexExit : Nat
  workspaceEntries : List String
  srcEntries : List String
  commitMessageRaw : String
deriving DecidableEq

/-- Observable record of one run of `deploy`.  Stage flags are `none` when
the run aborts before the source assigns them.  `msgLines` is `[]` when no
commit is created. -/
structure DeployResult where
  trace : List GitCmd
  isNewBranch : Option Bool
  isNonEmpty : Option Bool
  hasChanges : Option Bool
  workspaceAfterSync : Option (List String)
  msgLines : List String
  result : Except DeployError Outcome

/-- `destRepoUri` from `deploy`. -/
def destRepoUri (inputs : ResolvedInputs) : String :=
  "https://" ++ inputs.accessToken ++ "@github.com/" ++ inputs.destRepo ++ ".git"

/-- The commands issued before the branch-existence check (init, the two
identity configs, remote add, fetch) together with the `ls-remote` query. -/
def deployPre (inputs : ResolvedInputs) : List GitCmd :=
  [GitCmd.gitInit,
   GitCmd.configUserName inputs.commitUser,
   GitCmd.configUserEmail inputs.commitEmail,
   GitCmd.remoteAdd "dest" (destRepoUri inputs),
   GitCmd.fetch "dest",
   GitCmd.lsRemoteHeads "dest" inputs.destBranch]

/-- The `switch (exitCode)` of the branch-existence check:
0 means the branch exists, 2 means it does not, anything else throws. -/
def branchCheck (exitCode : Nat) : Except DeployError Bool :=
  match exitCode with
  | 0 => Except.ok true
  | 2 => Except.ok false
  | _ => Except.error DeployError.branchCheckFailed

/-- `isNewBranch` as assigned by the source: `false` in the
`destBranchExists` branch, `true` in the orphan branch. -/
def deployIsNewBranch (destBranchExists : Bool) : Bool :=
  if destBranchExists then false else true

/-- The checkout command issued: track the remote branch when it exists,
create an orphan branch otherwise. -/
def deployCheckoutCmd (inputs : ResolvedInputs) (destBranchExists : Bool) : GitCmd :=
  if destBranchExists then GitCmd.checkoutTrack ("dest/" ++ inputs.destBranch)
  else GitCmd.checkoutOrphan inputs.destBranch

/-- `hasChanges` as assigned by the source: for a new branch it is
`isNonEmpty`, otherwise it is `exitCode != 0` of
`git diff-index --quiet HEAD --` (run with `ignoreReturnCode: true`). -/
def deployHasChanges (w : GitWorld) (isNewBranch isNonEmpty : Bool) : Bool :=
  if isNewBranch then isNonEmpty else w.diffIndexExit != 0

/-- The `msgLines` array built by `deploy` (src/main.ts, lines 127-136). -/
def deployMsgLines (ctx : Context) (commitTitle : String) : List String :=
  ["Deploy(" ++ substrPrefix ctx.sha 7 ++ "): " ++ commitTitle,
   "",
   "Repo: " ++ ctx.repoOwner ++ "/" ++ ctx.repoRepo,
   "Workflow: " ++ ctx.workflow,
   "SHA: " ++ ctx.sha,
   "Ref: " ++ ctx.ref,
   "Actor: " ++ ctx.actor,
   ""]

/-- Commands issued from the checkout up to the change detection:
checkout, `git add .`, and — only on an existing branch — the
`diff-index` query. -/
def deployTraceBase (inputs : ResolvedInputs) (destBranchExists : Bool) : List GitCmd :=
  deployPre inputs ++ [deployCheckoutCmd inputs destBranchExists] ++ [GitCmd.addAll] ++
    (if deployIsNewBranch destBranchExists then [] else [GitCmd.diffIndexQuiet])

/-- The body of `deploy` after the branch-existence check resolved to
`destBranchExists`.  The single `if (hasChanges)` of the source is
distributed over the fields of the result record: when `hasChanges` the
trace ends with `git commit -m msg` and `git push dest destBranch` and the
outcome is `deployed`; otherwise no commit or push is issued and the
outcome is `skipped`. -/
def deployBody (ctx : Context) (inputs : ResolvedInputs) (w : GitWorld)
    (destBranchExists : Bool) : DeployResult :=
  DeployResult.mk
    (deployTraceBase inputs destBranchExists ++
      (if deployHasChanges w (deployIsNewBranch destBranchExists)
            (copyAllExceptDotGit w.srcEntries).snd
       then [GitCmd.commit (String.intercalate "\n"
               (deployMsgLines ctx (getCommitTitle w.commitMessageRaw))),
             GitCmd.push "dest" inputs.destBranch]
       else []))
    (some (deployIsNewBranch destBranchExists))
    (some (copyAllExceptDotGit w.srcEntries).snd)
    (some (deployHasChanges w (deployIsNewBranch destBranchExists)
            (copyAllExceptDotGit w.srcEntries).snd))
    (some (rmAllExceptDotGit w.workspaceEntries ++ (copyAllExceptDotGit w.srcEntries).fst))
    (if deployHasChanges w (deployIsNewBranch destBranchExists)
          (copyAllExceptDotGit w.srcEntries).snd
     then deployMsgLines ctx (getCommitTitle w.commitMessageRaw) else [])
    (if deployHasChanges w (deployIsNewBranch destBranchExists)
          (copyAllExceptDotGit w.srcEntries).snd
     then Except.ok Outcome.deployed else Except.ok Outcome.skipped)

/-- `deploy(inputs)` from the source, inside the workspace: run the
initialization commands, perform the three-way branch-existence check,
then the body; a non-0, non-2 `ls-remote` exit status aborts the run. -/
def deploy (ctx : Context) (inputs : ResolvedInputs) (w : GitWorld) : DeployResult :=
  match branchCheck w.lsRemoteExit with
  | Except.ok destBranchExists => deployBody ctx inputs w destBranchExists
  | Except.error e =>
      DeployResult.mk (deployPre inputs) none none none none [] (Except.error e)

/-- Lower-case hexadecimal digit for a nibble, as in
`Buffer.prototype.toString("hex")`. -/
def hexDigit (n : Nat) : Char :=
  if n < 10 then Char.ofNat (48 + n) else Char.ofNat (97 + (n - 10))

/-- Two-digit lower-case hexadecimal rendering of one byte. -/
def byteToHex (b : Nat) : String :=
  String.mk [hexDigit (b / 16 % 16), hexDigit (b % 16)]

/-- Hexadecimal rendering of a byte sequence
(`Buffer.prototype.toString("hex")`). -/
def bytesToHex : List Nat → String
  | [] => ""
  | b :: bs => byteToHex b ++ bytesToHex bs

/-- The directory name built by one attempt of `createTmpDirSync`:
`".tmp-" + crypto.randomBytes(8).toString("hex")`. -/
def tmpName (bytes : List Nat) : String :=
  ".tmp-" ++ bytesToHex bytes

/-- Oracle for `createTmpDirSync`: per attempt number (1-based), the bytes
returned by `crypto.randomBytes`, whether `fs.mkdirSync` throws (name
collision or other creation failure), whether `fs.statSync` throws, and the
result of `isDirectory()`. -/
structure TmpOracle where
  randomByte : Nat → Nat → Nat
  mkdirThrows : Nat → Bool
  statThrows : Nat → Bool
  isDir : Nat → Bool

/-- The 8 bytes drawn by `crypto.randomBytes(8)` at attempt `t`. -/
def attemptBytes (o : TmpOracle) (t : Nat) : List Nat :=
  (List.range 8).map (fun i => o.randomByte t i % 256)

/-- Attempt `t` returns a path: the creation and the stat ran without
throwing and the created path is a directory. -/
def attemptSucceeds (o : TmpOracle) (t : Nat) : Bool :=
  !(o.mkdirThrows t || o.statThrows t) && o.isDir t

/-- Errors of `createTmpDirSync`.  `attemptError` is the `throw e` of the
catch block (the final attempt rethrows the creation error);
`creationFailed` is
`throw new Error("Failed to create temporary directory")` after the loop. -/
inductive TmpError where
  | attemptError
  | creationFailed
deriving DecidableEq

/-- The `while (tryCount < MAX_TRIES)` loop of `createTmpDirSync`.  `fuel`
encodes the loop guard: the invariant `tryCount + fuel = 5` makes
`fuel > 0` equivalent to `tryCount < MAX_TRIES`.  One iteration increments
`tryCount` to `t`, draws a name, and attempts `mkdirSync`; a caught
exception is rethrown when `t >= MAX_TRIES`, a created directory is
returned, and every other case reenters the loop. -/
def createTmpDirLoop (tmpRoot : String) (o : TmpOracle) : Nat → Nat → Except TmpError String
  | _, 0 => Except.error TmpError.creationFailed
  | tryCount, fuel + 1 =>
      let t := tryCount + 1
      let tmpDir := tmpRoot ++ "/" ++ tmpName (attemptBytes o t)
      if o.mkdirThrows t || o.statThrows t then
        if 5 ≤ t then Except.error TmpError.attemptError
        else createTmpDirLoop tmpRoot o t fuel
      else if o.isDir t then Except.ok tmpDir
      else createTmpDirLoop tmpRoot o t fuel

/-- `createTmpDirSync()` from the source (`MAX_TRIES = 5`, starting with
`tryCount = 0`). -/
def createTmpDirSync (tmpRoot : String) (o : TmpOracle) : Except TmpError String :=
  createTmpDirLoop tmpRoot o 0 5

/-- `io.rmRF(path)` on a listing of existing directories: the path is no
longer present afterwards. -/
def rmRF (dirs : List String) (path : String) : List String :=
  dirs.filter (fun d => d != path)

/-- `withTmpDir(fn)` from the source, given the created directory `tmpDir`
and the listing `dirs` of other existing directories:
`try { return await fn(tmpDir) } finally { await io.rmRF(tmpDir) }`.
Returns the body's result (normal return or thrown error) paired with the
listing after the run; the `finally` removes `tmpDir` on both exit
paths. -/
def withTmpDir {α ε : Type} (tmpDir : String) (dirs : List String)
    (fn : String → Except ε α) : Except ε α × List String :=
  let dirsAfterCreate := tmpDir :: dirs
  match fn tmpDir with
  | Except.ok v => (Except.ok v, rmRF dirsAfterCreate tmpDir)
  | Except.error e => (Except.error e, rmRF dirsAfterCreate tmpDir)

/-- Example trigger context used by the concrete witnesses. -/
def ctxW : Context :=
  ⟨"0123456789abcdef0123456789abcdef01234567", "refs/heads/master",
   "demurgos", "ga-deploy-git", "Build and Deploy", "demurgos"⟩

/-- Example resolved configuration used by the concrete witnesses. -/
def inputsEx : ResolvedInputs :=
  ⟨"tok", ".", "demurgos/site", "gh-pages", "demurgos",
   "demurgos@users.noreply.github.com"⟩

/-- Example raw inputs with every optional field absent. -/
def inputsNone : Inputs := ⟨"tok", none, none, "gh-pages", none, none⟩

/-- World where the destination branch does not exist (`ls-remote` exits
with 2) and the source directory is non-empty. -/
def wNew : GitWorld := ⟨2, 0, [".git"], ["index.html"], "Initial commit\nbody"⟩

/-- World where the destination branch exists (`ls-remote` exits with 0)
and the staged tree differs from the head (`diff-index` exits with 1). -/
def wFound : GitWorld :=
  ⟨0, 1, [".git", "old"], ["index.html"], "Initial commit\nbody"⟩

/-- World where the destination branch exists and the staged tree equals
the head (`diff-index` exits with 0). -/
def wSame : GitWorld :=
  ⟨0, 0, [".git", "index.html"], ["index.html"], "Initial commit\nbody"⟩

/-- World where the `ls-remote` query exits with 128. -/
def wErr : GitWorld := ⟨128, 0, [".git"], ["index.html"], "Initial commit\nbody"⟩

/-- Oracle whose first creation attempt succeeds. -/
def oracleOk : TmpOracle := ⟨fun _ i => i, fun _ => false, fun _ => false, fun _ => true⟩

/-- Oracle where `mkdirSync` throws on every attempt (persistent name
collision or creation failure). -/
def oracleAllThrow : TmpOracle := ⟨fun _ _ => 0, fun _ => true, fun _ => false, fun _ => false⟩

theorem ne_empty_of_length_pos (s : String) (h : 0 < s.length) : s ≠ "" := by
  intro he
  rw [he] at h
  exact absurd h (by decide)

theorem append_right_ne_empty (a b : String) (hb : 0 < b.length) : a ++ b ≠ "" := by
  apply ne_empty_of_length_pos
  rw [String.length_append]
  omega

theorem append_mid_ne_empty (a b c : String) (hb : 0 < b.length) : a ++ b ++ c ≠ "" := by
  apply ne_empty_of_length_pos
  rw [String.length_append, String.length_append]
  omega

theorem isDefined_getD_ne_empty (o : Option String) (h : isDefined o = true) :
    o.getD "" ≠ "" := by
  match o with
  | none => simp [isDefined] at h
  | some s =>
      simp only [isDefined, decide_eq_true_eq] at h
      simpa using ne_empty_of_length_pos s h

theorem resolveInputs_accessToken (ctx : Context) (i : Inputs) :
    (resolveInputs ctx i).accessToken = i.accessToken := rfl

theorem resolveInputs_srcDir (ctx : Context) (i : Inputs) :
    (resolveInputs ctx i).srcDir =
      if isDefined i.srcDir then i.srcDir.getD "" else "." := rfl

theorem resolveInputs_destRepo (ctx : Context) (i : Inputs) :
    (resolveInputs ctx i).destRepo =
      if isDefined i.destRepo then i.destRepo.getD ""
      else ctx.repoOwner ++ "/" ++ ctx.repoRepo := rfl

theorem resolveInputs_destBranch (ctx : Context) (i : Inputs) :
    (resolveInputs ctx i).destBranch = i.destBranch := rfl

theorem resolveInputs_commitUser (ctx : Context) (i : Inputs) :
    (resolveInputs ctx i).commitUser =
      if isDefined i.commitUser then i.commitUser.getD "" else ctx.actor := rfl

theorem resolveInputs_commitEmail (ctx : Context) (i : Inputs) :
    (resolveInputs ctx i).commitEmail =
      if isDefined i.commitEmail then i.commitEmail.getD ""
      else ctx.actor ++ "@users.noreply.github.com" := rfl

/-- C5: configuration resolution is a pure function (the trigger context is
an explicit argument of `resolveInputs`); for every input with an absent
optional field the defaults are source directory `"."`, destination
repository `owner/name` of the triggering repository, commit author name
the triggering actor login, commit author email the synthesized no-reply
address of that actor; and — given that the required inputs and the actor
login are non-empty, which the input layer and the platform guarantee —
every field of the resolved configuration is present and non-empty. -/
theorem resolveInputs_defaults (ctx : Context) (i : Inputs)
    (hTok : i.accessToken ≠ "") (hBranch : i.destBranch ≠ "")
    (hActor : ctx.actor ≠ "") :
    (i.srcDir = none → (resolveInputs ctx i).srcDir = ".") ∧
    (i.destRepo = none →
        (resolveInputs ctx i).destRepo = ctx.repoOwner ++ "/" ++ ctx.repoRepo) ∧
    (i.commitUser = none → (resolveInputs ctx i).commitUser = ctx.actor) ∧
    (i.commitEmail = none →
        (resolveInputs ctx i).commitEmail = ctx.actor ++ "@users.noreply.github.com") ∧
    (resolveInputs ctx i).accessToken ≠ "" ∧
    (resolveInputs ctx i).srcDir ≠ "" ∧
    (resolveInputs ctx i).destRepo ≠ "" ∧
    (resolveInputs ctx i).destBranch ≠ "" ∧
    (resolveInputs ctx i).commitUser ≠ "" ∧
    (resolveInputs ctx i).commitEmail ≠ "" := by
  refine ⟨?_, ?_, ?_, ?_, hTok, ?_, ?_, hBranch, ?_, ?_⟩
  · intro h
    rw [resolveInputs_srcDir, h]
    rfl
  · intro h
    rw [resolveInputs_destRepo, h]
    rfl
  · intro h
    rw [resolveInputs_commitUser, h]
    rfl
  · intro h
    rw [resolveInputs_commitEmail, h]
    rfl
  · rw [resolveInputs_srcDir]
    by_cases hd : isDefined i.srcDir = true
    · rw [if_pos hd]
      exact isDefined_getD_ne_empty _ hd
    · rw [if_neg hd]
      decide
  · rw [resolveInputs_destRepo]
    by_cases hd : isDefined i.destRepo = true
    · rw [if_pos hd]
      exact isDefined_getD_ne_empty _ hd
    · rw [if_neg hd]
      exact append_mid_ne_empty _ _ _ (by decide)
  · rw [resolveInputs_commitUser]
    by_cases hd : isDefined i.commitUser = true
    · rw [if_pos hd]
      exact isDefined_getD_ne_empty _ hd
    · rw [if_neg hd]
      exact hActor
  · rw [resolveInputs_commitEmail]
    by_cases hd : isDefined i.commitEmail = true
    · rw [if_pos hd]
      exact isDefined_getD_ne_empty _ hd
    · rw [if_neg hd]
      exact append_right_ne_empty _ _ (by decide)

/-- Witness for C5 at a concrete context and raw inputs whose optional
fields are all absent. -/
theorem resolveInputs_defaults_witness :
    (resolveInputs ctxW inputsNone).srcDir = "." ∧
    (resolveInputs ctxW inputsNone).destRepo = "demurgos" ++ "/" ++ "ga-deploy-git" ∧
    (resolveInputs ctxW inputsNone).commitUser = "demurgos" ∧
    (resolveInputs ctxW inputsNone).commitEmail = "demurgos" ++ "@users.noreply.github.com" ∧
    (resolveInputs ctxW inputsNone).commitUser ≠ "" := by
  have h := resolveInputs_defaults ctxW inputsNone (by decide) (by decide) (by decide)
  exact ⟨h.1 rfl, h.2.1 rfl, h.2.2.1 rfl, h.2.2.2.1 rfl, h.2.2.2.2.2.2.2.2.1⟩

/-- C10: for each optional input (srcDir, destRepo, commitUser,
commitEmail), supplying the empty string resolves exactly as omitting the
input: `isDefined` rejects both, so the default is used. -/
theorem resolveInputs_empty_eq_absent (ctx : Context) (tok db : String)
    (sd dr cu ce : Option String) :
    resolveInputs ctx ⟨tok, some "", dr, db, cu, ce⟩ =
        resolveInputs ctx ⟨tok, none, dr, db, cu, ce⟩ ∧
    resolveInputs ctx ⟨tok, sd, some "", db, cu, ce⟩ =
        resolveInputs ctx ⟨tok, sd, none, db, cu, ce⟩ ∧
    resolveInputs ctx ⟨tok, sd, dr, db, some "", ce⟩ =
        resolveInputs ctx ⟨tok, sd, dr, db, none, ce⟩ ∧
    resolveInputs ctx ⟨tok, sd, dr, db, cu, some ""⟩ =
        resolveInputs ctx ⟨tok, sd, dr, db, cu, none⟩ :=
  ⟨rfl, rfl, rfl, rfl⟩

theorem branchCheck_zero : branchCheck 0 = Except.ok true := rfl

theorem branchCheck_two : branchCheck 2 = Except.ok false := rfl

theorem branchCheck_other (n : Nat) (h0 : n ≠ 0) (h2 : n ≠ 2) :
    branchCheck n = Except.error DeployError.branchCheckFailed := by
  match n with
  | 0 => exact absurd rfl h0
  | 1 => rfl
  | 2 => exact absurd rfl h2
  | n + 3 => rfl

theorem deploy_eq_body (ctx : Context) (inputs : ResolvedInputs) (w : GitWorld) (b : Bool)
    (h : branchCheck w.lsRemoteExit = Except.ok b) :
    deploy ctx inputs w = deployBody ctx inputs w b := by
  unfold deploy
  rw [h]

theorem deploy_eq_error (ctx : Context) (inputs : ResolvedInputs) (w : GitWorld)
    (h : branchCheck w.lsRemoteExit = Except.error DeployError.branchCheckFailed) :
    deploy ctx inputs w =
      DeployResult.mk (deployPre inputs) none none none none []
        (Except.error DeployError.branchCheckFailed) := by
  unfold deploy
  rw [h]

theorem deployBody_isNewBranch (ctx : Context) (inputs : ResolvedInputs) (w : GitWorld)
    (b : Bool) :
    (deployBody ctx inputs w b).isNewBranch = some (deployIsNewBranch b) := rfl

theorem deployBody_isNonEmpty (ctx : Context) (inputs : ResolvedInputs) (w : GitWorld)
    (b : Bool) :
    (deployBody ctx inputs w b).isNonEmpty = some (copyAllExceptDotGit w.srcEntries).snd := rfl

theorem deployBody_hasChanges (ctx : Context) (inputs : ResolvedInputs) (w : GitWorld)
    (b : Bool) :
    (deployBody ctx inputs w b).hasChanges =
      some (deployHasChanges w (deployIsNewBranch b) (copyAllExceptDotGit w.srcEntries).snd) := rfl

theorem deployBody_workspaceAfterSync (ctx : Context) (inputs : ResolvedInputs) (w : GitWorld)
    (b : Bool) :
    (deployBody ctx inputs w b).workspaceAfterSync =
      some (rmAllExceptDotGit w.workspaceEntries ++ (copyAllExceptDotGit w.srcEntries).fst) := rfl

theorem deployBody_result (ctx : Context) (inputs : ResolvedInputs) (w : GitWorld)
    (b : Bool) :
    (deployBody ctx inputs w b).result =
      if deployHasChanges w (deployIsNewBranch b) (copyAllExceptDotGit w.srcEntries).snd
      then Except.ok Outcome.deployed else Except.ok Outcome.skipped := rfl

theorem deployBody_trace (ctx : Context) (inputs : ResolvedInputs) (w : GitWorld)
    (b : Bool) :
    (deployBody ctx inputs w b).trace =
      deployTraceBase inputs b ++
        (if deployHasChanges w (deployIsNewBranch b) (copyAllExceptDotGit w.srcEntries).snd
         then [GitCmd.commit (String.intercalate "\n"
                 (deployMsgLines ctx (getCommitTitle w.commitMessageRaw))),
               GitCmd.push "dest" inputs.destBranch]
         else []) := rfl

theorem deployBody_msgLines (ctx : Context) (inputs : ResolvedInputs) (w : GitWorld)
    (b : Bool) :
    (deployBody ctx inputs w b).msgLines =
      if deployHasChanges w (deployIsNewBranch b) (copyAllExceptDotGit w.srcEntries).snd
      then deployMsgLines ctx (getCommitTitle w.commitMessageRaw) else [] := rfl

theorem deployBody_result_ok (ctx : Context) (inputs : ResolvedInputs) (w : GitWorld)
    (b : Bool) :
    ∃ o, (deployBody ctx inputs w b).result = Except.ok o := by
  rw [deployBody_result]
  by_cases h : deployHasChanges w (deployIsNewBranch b) (copyAllExceptDotGit w.srcEntries).snd = true
  · exact ⟨Outcome.deployed, by rw [if_pos h]⟩
  · exact ⟨Outcome.skipped, by rw [if_neg h]⟩

/-- C1: the branch-existence check maps the `ls-remote` exit status three
ways.  Exit status 0: the branch exists, it is checked out tracking the
remote and `isNewBranch` is `false`.  Exit status 2: the branch does not
exist, an orphan branch is created and `isNewBranch` is `true`.  Any other
exit status aborts the run with the branch-check error; neither of the two
success statuses does, so "not found" is never conflated with "error". -/
theorem deploy_branch_check_three_way (ctx : Context) (inputs : ResolvedInputs)
    (w : GitWorld) :
    (w.lsRemoteExit = 0 →
        (deploy ctx inputs w).isNewBranch = some false ∧
        GitCmd.checkoutTrack ("dest/" ++ inputs.destBranch) ∈ (deploy ctx inputs w).trace ∧
        (∃ o, (deploy ctx inputs w).result = Except.ok o)) ∧
    (w.lsRemoteExit = 2 →
        (deploy ctx inputs w).isNewBranch = some true ∧
        GitCmd.checkoutOrphan inputs.destBranch ∈ (deploy ctx inputs w).trace ∧
        (∃ o, (deploy ctx inputs w).result = Except.ok o)) ∧
    (w.lsRemoteExit ≠ 0 → w.lsRemoteExit ≠ 2 →
        (deploy ctx inputs w).result = Except.error DeployError.branchCheckFailed) := by
  refine ⟨?_, ?_, ?_⟩
  · intro h
    rw [deploy_eq_body ctx inputs w true (by rw [h]; rfl)]
    refine ⟨rfl, ?_, deployBody_result_ok ctx inputs w true⟩
    rw [deployBody_trace]
    simp [deployTraceBase, deployPre, deployCheckoutCmd]
  · intro h
    rw [deploy_eq_body ctx inputs w false (by rw [h]; rfl)]
    refine ⟨rfl, ?_, deployBody_result_ok ctx inputs w false⟩
    rw [deployBody_trace]
    simp [deployTraceBase, deployPre, deployCheckoutCmd]
  · intro h0 h2
    rw [deploy_eq_error ctx inputs w (branchCheck_other _ h0 h2)]

/-- Witness for C1 at the three concrete exit statuses 0, 2 and 128. -/
theorem deploy_branch_check_three_way_witness :
    (deploy ctxW inputsEx wFound).isNewBranch = some false ∧
    (deploy ctxW inputsEx wNew).isNewBranch = some true ∧
    (deploy ctxW inputsEx wErr).result = Except.error DeployError.branchCheckFailed :=
  ⟨((deploy_branch_check_three_way ctxW inputsEx wFound).1 rfl).1,
   ((deploy_branch_check_three_way ctxW inputsEx wNew).2.1 rfl).1,
   (deploy_branch_check_three_way ctxW inputsEx wErr).2.2 (by decide) (by decide)⟩

/-- C2: change detection.  On a new branch, `hasChanges` is the
`isNonEmpty` flag returned by the copy step; on an existing branch,
`hasChanges` is true exactly when the `diff-index` comparison exits with a
non-zero status, and that status never makes the run fail (the run still
ends in a success outcome). -/
theorem deploy_change_detection (ctx : Context) (inputs : ResolvedInputs) (w : GitWorld) :
    ((deploy ctx inputs w).isNewBranch = some true →
        (deploy ctx inputs w).hasChanges = some (copyAllExceptDotGit w.srcEntries).snd) ∧
    ((deploy ctx inputs w).isNewBranch = some false →
        (deploy ctx inputs w).hasChanges = some (w.diffIndexExit != 0) ∧
        (∃ o, (deploy ctx inputs w).result = Except.ok o)) := by
  cases hbc : branchCheck w.lsRemoteExit with
  | ok b =>
      rw [deploy_eq_body ctx inputs w b hbc]
      cases b with
      | false =>
          refine ⟨fun _ => rfl, fun h => ?_⟩
          rw [deployBody_isNewBranch] at h
          exact absurd h (by decide)
      | true =>
          refine ⟨fun h => ?_, fun _ => ⟨rfl, deployBody_result_ok ctx inputs w true⟩⟩
          rw [deployBody_isNewBranch] at h
          exact absurd h (by decide)
  | error e =>
      cases e
      rw [deploy_eq_error ctx inputs w hbc]
      exact ⟨fun h => by simp at h, fun h => by simp at h⟩

/-- Witness for C2 at the concrete worlds of a new branch, an existing
branch with a differing tree, and an existing branch with an identical
tree. -/
theorem deploy_change_detection_witness :
    (deploy ctxW inputsEx wNew).hasChanges = some (copyAllExceptDotGit wNew.srcEntries).snd ∧
    (deploy ctxW inputsEx wFound).hasChanges = some (wFound.diffIndexExit != 0) ∧
    (∃ o, (deploy ctxW inputsEx wSame).result = Except.ok o) :=
  ⟨(deploy_change_detection ctxW inputsEx wNew).1 rfl,
   ((deploy_change_detection ctxW inputsEx wFound).2 rfl).1,
   ((deploy_change_detection ctxW inputsEx wSame).2 rfl).2⟩

/-- C3 counterexample: at a concrete run that detects changes, the first
line of the built commit message is not of the claimed form
`Deploy({ref}@{shortSha}): {commitTitle}` — the source builds
`Deploy({shortSha}): {commitTitle}`, without the ref. -/
theorem deploy_commit_message_first_line_cex :
    (deploy ctxW inputsEx wNew).hasChanges = some true ∧
    (deploy ctxW inputsEx wNew).msgLines.head? ≠
      some ("Deploy(" ++ ctxW.ref ++ "@" ++ substrPrefix ctxW.sha 7 ++ "): " ++
        getCommitTitle wNew.commitMessageRaw) :=
  ⟨rfl, by decide⟩

/-- C3 (amended): for every run that detects changes, the first line of the
built commit message is exactly `Deploy({shortSha}): {commitTitle}`, where
`shortSha` is the first 7 characters of the full triggering commit
identifier and `commitTitle` is the first line (trimmed) of the source
commit's message; the triggering ref does not appear in the first line (it
appears in the `Ref:` body line). -/
theorem deploy_commit_message_first_line (ctx : Context) (inputs : ResolvedInputs)
    (w : GitWorld) (h : (deploy ctx inputs w).hasChanges = some true) :
    (deploy ctx inputs w).msgLines.head? =
      some ("Deploy(" ++ substrPrefix ctx.sha 7 ++ "): " ++
        getCommitTitle w.commitMessageRaw) := by
  cases hbc : branchCheck w.lsRemoteExit with
  | error e =>
      cases e
      rw [deploy_eq_error ctx inputs w hbc] at h
      simp at h
  | ok b =>
      rw [deploy_eq_body ctx inputs w b hbc] at h ⊢
      rw [deployBody_hasChanges] at h
      rw [deployBody_msgLines, Option.some_inj.mp h]
      rfl

/-- Witness for C3 (amended) at a concrete run with changes. -/
theorem deploy_commit_message_first_line_witness :
    (deploy ctxW inputsEx wNew).msgLines.head? =
      some ("Deploy(" ++ substrPrefix ctxW.sha 7 ++ "): " ++
        getCommitTitle wNew.commitMessageRaw) :=
  deploy_commit_message_first_line ctxW inputsEx wNew rfl

theorem commit_not_mem_traceBase (inputs : ResolvedInputs) (b : Bool) (m : String) :
    GitCmd.commit m ∉ deployTraceBase inputs b := by
  cases b <;> simp [deployTraceBase, deployPre, deployCheckoutCmd, deployIsNewBranch]

theorem push_not_mem_traceBase (inputs : ResolvedInputs) (b : Bool) (r br : String) :
    GitCmd.push r br ∉ deployTraceBase inputs b := by
  cases b <;> simp [deployTraceBase, deployPre, deployCheckoutCmd, deployIsNewBranch]

/-- C4: the commit and push commands are issued if and only if `hasChanges`
is true; a run without changes issues neither and ends in the `skipped`
success outcome, which is distinguishable from the `deployed` outcome and
is not an error. -/
theorem deploy_commit_push_iff_changes (ctx : Context) (inputs : ResolvedInputs)
    (w : GitWorld) :
    ((∃ m, GitCmd.commit m ∈ (deploy ctx inputs w).trace) ↔
        (deploy ctx inputs w).hasChanges = some true) ∧
    ((∃ r br, GitCmd.push r br ∈ (deploy ctx inputs w).trace) ↔
        (deploy ctx inputs w).hasChanges = some true) ∧
    ((deploy ctx inputs w).hasChanges = some false →
        (deploy ctx inputs w).result = Except.ok Outcome.skipped) ∧
    ((deploy ctx inputs w).hasChanges = some true →
        (deploy ctx inputs w).result = Except.ok Outcome.deployed) ∧
    Outcome.skipped ≠ Outcome.deployed := by
  cases hbc : branchCheck w.lsRemoteExit with
  | error e =>
      cases e
      rw [deploy_eq_error ctx inputs w hbc]
      refine ⟨?_, ?_, ?_, ?_, by decide⟩
      · constructor
        · rintro ⟨m, hm⟩
          simp [deployPre] at hm
        · intro h
          simp at h
      · constructor
        · rintro ⟨r, br, hm⟩
          simp [deployPre] at hm
        · intro h
          simp at h
      · intro h
        simp at h
      · intro h
        simp at h
  | ok b =>
      rw [deploy_eq_body ctx inputs w b hbc]
      by_cases hc : deployHasChanges w (deployIsNewBranch b)
          (copyAllExceptDotGit w.srcEntries).snd = true
      · refine ⟨?_, ?_, ?_, ?_, by decide⟩
        · constructor
          · intro _
            rw [deployBody_hasChanges, hc]
          · intro _
            refine ⟨String.intercalate "\n"
              (deployMsgLines ctx (getCommitTitle w.commitMessageRaw)), ?_⟩
            rw [deployBody_trace, hc]
            simp
        · constructor
          · intro _
            rw [deployBody_hasChanges, hc]
          · intro _
            refine ⟨"dest", inputs.destBranch, ?_⟩
            rw [deployBody_trace, hc]
            simp
        · intro h
          rw [deployBody_hasChanges, hc] at h
          exact absurd h (by decide)
        · intro _
          rw [deployBody_result, hc]
          rfl
      · have hcf : deployHasChanges w (deployIsNewBranch b)
            (copyAllExceptDotGit w.srcEntries).snd = false := by
          revert hc
          cases deployHasChanges w (deployIsNewBranch b)
            (copyAllExceptDotGit w.srcEntries).snd <;> simp
        refine ⟨?_, ?_, ?_, ?_, by decide⟩
        · constructor
          · rintro ⟨m, hm⟩
            rw [deployBody_trace, hcf] at hm
            simp at hm
            exact absurd hm (commit_not_mem_traceBase inputs b m)
          · intro h
            rw [deployBody_hasChanges, hcf] at h
            exact absurd h (by decide)
        · constructor
          · rintro ⟨r, br, hm⟩
            rw [deployBody_trace, hcf] at hm
            simp at hm
            exact absurd hm (push_not_mem_traceBase inputs b r br)
          · intro h
            rw [deployBody_hasChanges, hcf] at h
            exact absurd h (by decide)
        · intro _
          rw [deployBody_result, hcf]
          rfl
        · intro h
          rw [deployBody_hasChanges, hcf] at h
          exact absurd h (by decide)

/-- Witness for C4: a run with changes issues a commit; a run without
changes ends in the `skipped` outcome. -/
theorem deploy_commit_push_iff_changes_witness :
    (∃ m, GitCmd.commit m ∈ (deploy ctxW inputsEx wNew).trace) ∧
    (deploy ctxW inputsEx wSame).result = Except.ok Outcome.skipped :=
  ⟨(deploy_commit_push_iff_changes ctxW inputsEx wNew).1.mpr rfl,
   (deploy_commit_push_iff_changes ctxW inputsEx wSame).2.2.1 rfl⟩

/-- C9: the local commit identity configured during repository
initialization is exactly the resolved configuration's commit author name
and email: the run issues `git config --local user.name` with the resolved
`commitUser` and `git config --local user.email` with the resolved
`commitEmail`, and with no other values. -/
theorem deploy_configures_identity (ctx : Context) (inputs : ResolvedInputs)
    (w : GitWorld) :
    GitCmd.configUserName inputs.commitUser ∈ (deploy ctx inputs w).trace ∧
    GitCmd.configUserEmail inputs.commitEmail ∈ (deploy ctx inputs w).trace ∧
    (∀ n, GitCmd.configUserName n ∈ (deploy ctx inputs w).trace →
        n = inputs.commitUser) ∧
    (∀ e, GitCmd.configUserEmail e ∈ (deploy ctx inputs w).trace →
        e = inputs.commitEmail) := by
  cases hbc : branchCheck w.lsRemoteExit with
  | error e =>
      cases e
      rw [deploy_eq_error ctx inputs w hbc]
      refine ⟨by simp [deployPre], by simp [deployPre], ?_, ?_⟩
      · intro n hn
        simp [deployPre] at hn
        exact hn
      · intro e2 he
        simp [deployPre] at he
        exact he
  | ok b =>
      rw [deploy_eq_body ctx inputs w b hbc, deployBody_trace]
      refine ⟨?_, ?_, ?_, ?_⟩
      · simp [deployTraceBase, deployPre]
      · simp [deployTraceBase, deployPre]
      · intro n hn
        rw [List.mem_append] at hn
        rcases hn with h1 | h1
        · cases b <;>
            simp [deployTraceBase, deployPre, deployCheckoutCmd, deployIsNewBranch] at h1 <;>
            exact h1
        · split at h1 <;> simp at h1
      · intro e2 he
        rw [List.mem_append] at he
        rcases he with h1 | h1
        · cases b <;>
            simp [deployTraceBase, deployPre, deployCheckoutCmd, deployIsNewBranch] at h1 <;>
            exact h1
        · split at h1 <;> simp at h1

/-- Witness for C9 at a concrete run: the configured user name command
carries the resolved commit author name. -/
theorem deploy_configures_identity_witness :
    GitCmd.configUserName "demurgos" ∈ (deploy ctxW inputsEx wNew).trace ∧
    ("demurgos" : String) = inputsEx.commitUser :=
  ⟨(deploy_configures_identity ctxW inputsEx wNew).1,
   (deploy_configures_identity ctxW inputsEx wNew).2.2.1 "demurgos" (by decide)⟩

theorem foldl_copyStep (l : List String) (acc : List String × Bool) :
    l.foldl copyStep acc =
      (acc.fst ++ l.filter (fun n => n != ".git"),
       acc.snd || !(l.filter (fun n => n != ".git")).isEmpty) := by
  induction l generalizing acc with
  | nil => simp
  | cons a l ih =>
      rw [List.foldl_cons, ih]
      by_cases ha : (a == ".git") = true
      · have ha2 : a = ".git" := by simpa using ha
        simp [copyStep, List.filter_cons, ha2]
      · have ha2 : (a != ".git") = true := by
          simp [bne]
          simpa using ha
        simp [copyStep, List.filter_cons, ha, ha2]

theorem copyAllExceptDotGit_fst (l : List String) :
    (copyAllExceptDotGit l).fst = l.filter (fun n => n != ".git") := by
  unfold copyAllExceptDotGit
  rw [foldl_copyStep]
  simp

theorem copyAllExceptDotGit_snd (l : List String) :
    (copyAllExceptDotGit l).snd = !(l.filter (fun n => n != ".git")).isEmpty := by
  unfold copyAllExceptDotGit
  rw [foldl_copyStep]
  simp

/-- C6: tree synchronization removes every workspace entry except the
`.git` metadata directory (only `.git` entries remain after the removal),
copies every entry of the source directory except any `.git` entry, and
the `isNonEmpty` flag recorded by the run is true exactly when at least
one (necessarily non-`.git`) entry of the source directory was copied. -/
theorem deploy_tree_sync (ctx : Context) (inputs : ResolvedInputs) (w : GitWorld) :
    (∀ name, name ∈ rmAllExceptDotGit w.workspaceEntries ↔
        name ∈ w.workspaceEntries ∧ name = ".git") ∧
    ((copyAllExceptDotGit w.srcEntries).fst =
        w.srcEntries.filter (fun n => n != ".git")) ∧
    ((copyAllExceptDotGit w.srcEntries).snd = true ↔
        ∃ name ∈ w.srcEntries, name ≠ ".git") ∧
    (∀ nb, (deploy ctx inputs w).isNewBranch = some nb →
        (deploy ctx inputs w).workspaceAfterSync =
          some (rmAllExceptDotGit w.workspaceEntries ++
            (copyAllExceptDotGit w.srcEntries).fst) ∧
        (deploy ctx inputs w).isNonEmpty = some (copyAllExceptDotGit w.srcEntries).snd) := by
  refine ⟨?_, copyAllExceptDotGit_fst _, ?_, ?_⟩
  · intro name
    simp [rmAllExceptDotGit, List.mem_filter]
  · rw [copyAllExceptDotGit_snd]
    constructor
    · intro h
      by_contra hn
      push_neg at hn
      have hnil : w.srcEntries.filter (fun n => n != ".git") = [] := by
        apply List.filter_eq_nil_iff.mpr
        intro a ha
        simp [bne]
        exact hn a ha
      rw [hnil] at h
      simp at h
    · intro h
      rcases h with ⟨name, hmem, hne⟩
      have : name ∈ w.srcEntries.filter (fun n => n != ".git") := by
        rw [List.mem_filter]
        exact ⟨hmem, by simpa [bne] using hne⟩
      cases hf : w.srcEntries.filter (fun n => n != ".git") with
      | nil => rw [hf] at this; simp at this
      | cons x xs => simp [hf]
  · intro nb hnb
    cases hbc : branchCheck w.lsRemoteExit with
    | error e =>
        cases e
        rw [deploy_eq_error ctx inputs w hbc] at hnb
        simp at hnb
    | ok b =>
        rw [deploy_eq_body ctx inputs w b hbc]
        exact ⟨rfl, rfl⟩

/-- Witness for C6 at concrete listings: the synchronized workspace of a
concrete run, and a concrete source listing with one copied entry. -/
theorem deploy_tree_sync_witness :
    (".git" ∈ rmAllExceptDotGit wFound.workspaceEntries ↔
        ".git" ∈ wFound.workspaceEntries ∧ (".git" : String) = ".git") ∧
    ((copyAllExceptDotGit wNew.srcEntries).snd = true) ∧
    (deploy ctxW inputsEx wNew).workspaceAfterSync =
      some (rmAllExceptDotGit wNew.workspaceEntries ++
        (copyAllExceptDotGit wNew.srcEntries).fst) :=
  ⟨(deploy_tree_sync ctxW inputsEx wFound).1 ".git",
   (deploy_tree_sync ctxW inputsEx wNew).2.2.1.mpr ⟨"index.html", by decide, by decide⟩,
   ((deploy_tree_sync ctxW inputsEx wNew).2.2.2 true rfl).1⟩

/-- C7: the scoped-acquisition wrapper removes the ephemeral workspace
directory on every exit path of the deployment body: whether the body
returns normally or throws, the directory is absent from the final
listing, the body's result is propagated unchanged, and the final listing
equals the initial one whenever the workspace directory was fresh. -/
theorem withTmpDir_releases {α ε : Type} (tmpDir : String) (dirs : List String)
    (fn : String → Except ε α) :
    tmpDir ∉ (withTmpDir tmpDir dirs fn).snd ∧
    (withTmpDir tmpDir dirs fn).fst = fn tmpDir ∧
    (tmpDir ∉ dirs → (withTmpDir tmpDir dirs fn).snd = dirs) := by
  have hsnd : (withTmpDir tmpDir dirs fn).snd = rmRF (tmpDir :: dirs) tmpDir := by
    unfold withTmpDir
    cases fn tmpDir <;> rfl
  have hfst : (withTmpDir tmpDir dirs fn).fst = fn tmpDir := by
    unfold withTmpDir
    cases h : fn tmpDir <;> rfl
  refine ⟨?_, hfst, ?_⟩
  · rw [hsnd]
    unfold rmRF
    intro hmem
    rw [List.mem_filter] at hmem
    simp [bne] at hmem
  · intro hnd
    rw [hsnd]
    unfold rmRF
    rw [List.filter_cons]
    simp only [bne_self_eq_false]
    apply List.filter_eq_self.mpr
    intro a ha
    simp only [bne_iff_ne, ne_eq]
    intro he
    exact hnd (he ▸ ha)

/-- Witness for C7: a thrown body and a normally returning body, both
leaving the directory listing clean. -/
theorem withTmpDir_releases_witness :
    "/tmp/.tmp-aa" ∉
      (withTmpDir "/tmp/.tmp-aa" ["/home"]
        (fun _ => (Except.error "boom" : Except String Nat))).snd ∧
    (withTmpDir "/tmp/.tmp-aa" ["/home"]
        (fun _ => (Except.ok 7 : Except String Nat))).snd = ["/home"] :=
  ⟨(withTmpDir_releases "/tmp/.tmp-aa" ["/home"] (fun _ => Except.error "boom")).1,
   (withTmpDir_releases "/tmp/.tmp-aa" ["/home"] (fun _ => Except.ok 7)).2.2 (by decide)⟩

theorem byteToHex_length (b : Nat) : (byteToHex b).length = 2 := rfl

theorem bytesToHex_length (bs : List Nat) : (bytesToHex bs).length = 2 * bs.length := by
  induction bs with
  | nil => rfl
  | cons b bs ih =>
      have hstep : bytesToHex (b :: bs) = byteToHex b ++ bytesToHex bs := rfl
      rw [hstep, String.length_append, byteToHex_length, ih, List.length_cons]
      omega

theorem attemptBytes_length (o : TmpOracle) (t : Nat) : (attemptBytes o t).length = 8 := by
  simp [attemptBytes]

theorem tmpName_length (bs : List Nat) : (tmpName bs).length = 5 + 2 * bs.length := by
  unfold tmpName
  rw [String.length_append, bytesToHex_length]
  rfl

theorem createTmpDirLoop_ok (tmpRoot : String) (o : TmpOracle) :
    ∀ fuel tryCount p, createTmpDirLoop tmpRoot o tryCount fuel = Except.ok p →
      ∃ t, tryCount < t ∧ t ≤ tryCount + fuel ∧ attemptSucceeds o t = true ∧
        p = tmpRoot ++ "/" ++ tmpName (attemptBytes o t) := by
  intro fuel
  induction fuel with
  | zero =>
      intro tryCount p h
      simp [createTmpDirLoop] at h
  | succ f ih =>
      intro tryCount p h
      simp only [createTmpDirLoop] at h
      by_cases h1 : (o.mkdirThrows (tryCount + 1) || o.statThrows (tryCount + 1)) = true
      · rw [if_pos h1] at h
        by_cases h5 : 5 ≤ tryCount + 1
        · rw [if_pos h5] at h
          cases h
        · rw [if_neg h5] at h
          rcases ih (tryCount + 1) p h with ⟨t, ht1, ht2, ht3, ht4⟩
          exact ⟨t, by omega, by omega, ht3, ht4⟩
      · rw [if_neg h1] at h
        rw [Bool.not_eq_true] at h1
        by_cases hd : o.isDir (tryCount + 1) = true
        · rw [if_pos hd] at h
          injection h with h2
          refine ⟨tryCount + 1, by omega, by omega, ?_, h2.symm⟩
          simp [attemptSucceeds, h1, hd]
        · rw [if_neg hd] at h
          rcases ih (tryCount + 1) p h with ⟨t, ht1, ht2, ht3, ht4⟩
          exact ⟨t, by omega, by omega, ht3, ht4⟩

theorem createTmpDirLoop_exhaust (tmpRoot : String) (o : TmpOracle) :
    ∀ fuel tryCount, tryCount + fuel = 5 → 0 < fuel →
      (∀ t, tryCount < t → t ≤ 5 → attemptSucceeds o t = false) →
      createTmpDirLoop tmpRoot o tryCount fuel =
        (if (o.mkdirThrows 5 || o.statThrows 5) = true
         then Except.error TmpError.attemptError
         else Except.error TmpError.creationFailed) := by
  intro fuel
  induction fuel with
  | zero =>
      intro tryCount hinv hpos hfail
      omega
  | succ f ih =>
      intro tryCount hinv _ hfail
      simp only [createTmpDirLoop]
      by_cases h1 : (o.mkdirThrows (tryCount + 1) || o.statThrows (tryCount + 1)) = true
      · rw [if_pos h1]
        by_cases h5 : 5 ≤ tryCount + 1
        · rw [if_pos h5]
          have ht : tryCount + 1 = 5 := by omega
          rw [ht] at h1
          rw [if_pos h1]
        · rw [if_neg h5]
          exact ih (tryCount + 1) (by omega) (by omega)
            (fun t a b => hfail t (by omega) b)
      · rw [if_neg h1]
        rw [Bool.not_eq_true] at h1
        have hsucc := hfail (tryCount + 1) (by omega) (by omega)
        have hdir : o.isDir (tryCount + 1) = false := by
          unfold attemptSucceeds at hsucc
          rw [h1] at hsucc
          simpa using hsucc
        rw [if_neg (by simp [hdir])]
        by_cases hf : f = 0
        · subst hf
          have ht : tryCount + 1 = 5 := by omega
          rw [ht] at h1
          simp only [createTmpDirLoop]
          rw [if_neg (by simp [h1])]
        · exact ih (tryCount + 1) (by omega) (by omega)
            (fun t a b => hfail t (by omega) b)

/-- C8 (amended): workspace acquisition draws the name of each attempt
from 8 bytes of randomness rendered as hexadecimal under the platform
temporary root (the name has the 21 characters of `.tmp-` plus 16 hex
digits; the source draws them from `crypto.randomBytes`); it makes at most
5 attempts on name collision or creation failure; and after exhausting all
5 attempts it fails with an error instead of returning a path — the
rethrown creation error of the final attempt when that attempt threw,
otherwise the labelled workspace-creation error. -/
theorem createTmpDirSync_spec (tmpRoot : String) (o : TmpOracle) :
    (∀ p, createTmpDirSync tmpRoot o = Except.ok p →
        ∃ t, 1 ≤ t ∧ t ≤ 5 ∧ attemptSucceeds o t = true ∧
          p = tmpRoot ++ "/" ++ tmpName (attemptBytes o t) ∧
          (tmpName (attemptBytes o t)).length = 21) ∧
    ((∀ t, 1 ≤ t → t ≤ 5 → attemptSucceeds o t = false) →
        createTmpDirSync tmpRoot o =
          (if (o.mkdirThrows 5 || o.statThrows 5) = true
           then Except.error TmpError.attemptError
           else Except.error TmpError.creationFailed)) := by
  constructor
  · intro p h
    unfold createTmpDirSync at h
    rcases createTmpDirLoop_ok tmpRoot o 5 0 p h with ⟨t, h1, h2, h3, h4⟩
    refine ⟨t, by omega, by omega, h3, h4, ?_⟩
    rw [tmpName_length, attemptBytes_length]
  · intro hfail
    unfold createTmpDirSync
    exact createTmpDirLoop_exhaust tmpRoot o 5 0 (by omega) (by omega)
      (fun t a b => hfail t (by omega) b)

/-- C8 counterexample: with `mkdirSync` throwing on every attempt (a
persistent collision or creation failure), the run exhausts all 5 attempts
and fails by rethrowing the final attempt's creation error — not with the
labelled workspace-creation error — and returns no path. -/
theorem createTmpDirSync_cex :
    createTmpDirSync "/tmp" oracleAllThrow = Except.error TmpError.attemptError ∧
    TmpError.attemptError ≠ TmpError.creationFailed ∧
    (∀ p, createTmpDirSync "/tmp" oracleAllThrow ≠ Except.ok p) := by
  refine ⟨rfl, by decide, ?_⟩
  intro p h
  rw [show createTmpDirSync "/tmp" oracleAllThrow = Except.error TmpError.attemptError
    from rfl] at h
  exact Except.noConfusion h

/-- Witness for C8: a first-attempt success returns a path of the drawn
shape, and an all-throwing oracle ends in the final attempt's error. -/
theorem createTmpDirSync_spec_witness :
    (∃ t, 1 ≤ t ∧ t ≤ 5 ∧ attemptSucceeds oracleOk t = true ∧
        ("/tmp/.tmp-0001020304050607" : String) =
          "/tmp" ++ "/" ++ tmpName (attemptBytes oracleOk t) ∧
        (tmpName (attemptBytes oracleOk t)).length = 21) ∧
    createTmpDirSync "/tmp" oracleAllThrow =
      (if (oracleAllThrow.mkdirThrows 5 || oracleAllThrow.statThrows 5) = true
       then Except.error TmpError.attemptError
       else Except.error TmpError.creationFailed) :=
  ⟨(createTmpDirSync_spec "/tmp" oracleOk).1 "/tmp/.tmp-0001020304050607" rfl,
   (createTmpDirSync_spec "/tmp" oracleAllThrow).2 (fun _ _ _ => rfl)⟩
